import Mathlib

/-!
Verification of `media/libstagefright/foundation/OpusHeader.cpp`.

The C++ file is shallowly embedded: buffers (`uint8_t*` plus a size) become
`List Nat` (each entry a byte value; every read goes through `byteAt`, which
reduces modulo 256 exactly as a `uint8_t` access does), the four functions
`ReadLE16`, `ParseOpusHeader`, `WriteOpusHeader`, `WriteOpusHeaders` and
`GetOpusHeaderBuffers` become executable Lean functions, and the `memcpy` /
`memset` buffer mutations become the pure list splice `writeBytes`.
-/

namespace OpusModel

/-- Read byte `i` of a buffer, as C `data[i]` on a `uint8_t*`: the value is a
byte (reduced mod 256).  Out-of-range positions read as 0; the embedding only
relies on positions at which the C code is in bounds. -/
def byteAt (data : List Nat) (i : Nat) : Nat :=
  data.getD i 0 % 256

/-- Modelled from the spec: the `OpusHeader` record (its C definition lives in
`OpusHeader.h`, which is not among the sources).  Fields follow the spec data
model: `channels` a channel count, `skip_samples` an unsigned 16-bit quantity
(held in an `int` field), `gain_db` a signed 16-bit quantity, `channel_mapping`,
`num_streams`, `num_coupled` byte-valued counts, `stream_map` the per-channel
stream map entries. -/
structure OpusHeader where
  channels : Nat
  skip_samples : Nat
  gain_db : Int
  channel_mapping : Nat
  num_streams : Nat
  num_coupled : Nat
  stream_map : List Nat
deriving DecidableEq, Repr

/-- Modelled from the spec: section 7 error taxonomy.  The C parser returns a
single `bool`; its distinct `return false` sites are tagged by the log message
each one emits, which correspond one-to-one to these cases. -/
inductive OpusParseError where
  | tooSmall
  | invalidChannelCount
  | missingStreamMap
  | bufferTooSmallForMapping
  | inconsistentMapping
deriving DecidableEq, Repr

/-- `constexpr int kMaxChannels = 8`. -/
def kMaxChannels : Nat := 8

/-- `constexpr uint8_t kOpusChannelMap[kMaxChannels][kMaxChannels]`, row
`channels - 1` holding the canonical stream map for that channel count. -/
def kOpusChannelMap : List (List Nat) :=
  [[0],
   [0, 1],
   [0, 2, 1],
   [0, 1, 2, 3],
   [0, 4, 1, 2, 3],
   [0, 4, 1, 2, 3, 5],
   [0, 4, 1, 2, 3, 5, 6],
   [0, 6, 1, 2, 3, 4, 5, 7]]

/-- `constexpr size_t kOpusHeaderSize = 19`. -/
def kOpusHeaderSize : Nat := 19

/-- `constexpr size_t kOpusHeaderLabelOffset = 0`. -/
def kOpusHeaderLabelOffset : Nat := 0

/-- `constexpr size_t kOpusHeaderVersionOffset = 8`. -/
def kOpusHeaderVersionOffset : Nat := 8

/-- `constexpr size_t kOpusHeaderChannelsOffset = 9`. -/
def kOpusHeaderChannelsOffset : Nat := 9

/-- `constexpr size_t kOpusHeaderSkipSamplesOffset = 10`. -/
def kOpusHeaderSkipSamplesOffset : Nat := 10

/-- `constexpr size_t kOpusHeaderSampleRateOffset = 12`. -/
def kOpusHeaderSampleRateOffset : Nat := 12

/-- `constexpr size_t kOpusHeaderGainOffset = 16`. -/
def kOpusHeaderGainOffset : Nat := 16

/-- `constexpr size_t kOpusHeaderChannelMappingOffset = 18`. -/
def kOpusHeaderChannelMappingOffset : Nat := 18

/-- `constexpr size_t kOpusHeaderNumStreamsOffset = 19`. -/
def kOpusHeaderNumStreamsOffset : Nat := 19

/-- `constexpr size_t kOpusHeaderNumCoupledStreamsOffset = 20`. -/
def kOpusHeaderNumCoupledStreamsOffset : Nat := 20

/-- `constexpr size_t kOpusHeaderStreamMapOffset = 21`. -/
def kOpusHeaderStreamMapOffset : Nat := 21

/-- `constexpr int kMaxChannelsWithDefaultLayout = 2`. -/
def kMaxChannelsWithDefaultLayout : Nat := 2

/-- The ASCII bytes of the magic label `"OpusHead"`. -/
def opusHeadLabel : List Nat := [79, 112, 117, 115, 72, 101, 97, 100]

/-- `ReadLE16(data, data_size, read_offset)`: bounds-checked little-endian
16-bit read; returns 0 when the second byte it needs would be out of bounds.
For byte values, `a | (b << 8)` is `a + 256 * b`. -/
def ReadLE16 (data : List Nat) (data_size read_offset : Nat) : Nat :=
  if data_size ≤ read_offset + 1 then 0
  else byteAt data read_offset + 256 * byteAt data (read_offset + 1)

/-- Reinterpret an unsigned 16-bit value as C `int16_t` (two's complement), as
the cast `static_cast<int16_t>` does. -/
def toInt16 (n : Nat) : Int :=
  if n % 65536 < 32768 then (n % 65536 : Int) else (n % 65536 : Int) - 65536

/-- `ParseOpusHeader(data, data_size, header)`.  The C function returns `bool`
and fills `header`; here the filled record is returned in `Except`, with each
`return false` site mapped to its taxonomy case (success of the C call is
`(ParseOpusHeader data n).isOk`). -/
def ParseOpusHeader (data : List Nat) (data_size : Nat) :
    Except OpusParseError OpusHeader :=
  if data_size < kOpusHeaderSize then
    .error .tooSmall
  else
    let channels := byteAt data kOpusHeaderChannelsOffset
    if channels < 1 ∨ kMaxChannels < channels then
      .error .invalidChannelCount
    else
      let skip_samples := ReadLE16 data data_size kOpusHeaderSkipSamplesOffset
      let gain_db := toInt16 (ReadLE16 data data_size kOpusHeaderGainOffset)
      let channel_mapping := byteAt data kOpusHeaderChannelMappingOffset
      if channel_mapping = 0 then
        if kMaxChannelsWithDefaultLayout < channels then
          .error .missingStreamMap
        else
          .ok { channels := channels, skip_samples := skip_samples,
                gain_db := gain_db, channel_mapping := channel_mapping,
                num_streams := 1,
                num_coupled := if 1 < channels then 1 else 0,
                stream_map := [0, 1] }
      else
        if data_size < kOpusHeaderStreamMapOffset + channels then
          .error .bufferTooSmallForMapping
        else
          let num_streams := byteAt data kOpusHeaderNumStreamsOffset
          let num_coupled := byteAt data kOpusHeaderNumCoupledStreamsOffset
          if num_streams + num_coupled ≠ channels then
            .error .inconsistentMapping
          else
            .ok { channels := channels, skip_samples := skip_samples,
                  gain_db := gain_db, channel_mapping := channel_mapping,
                  num_streams := num_streams, num_coupled := num_coupled,
                  stream_map := (List.range channels).map fun i =>
                    byteAt data (kOpusHeaderStreamMapOffset + i) }

/-- Splice `bs` into `buf` starting at `off`: the pure-list form of
`memcpy(buf + off, bs, bs.length)`.  For in-bounds writes
(`off + bs.length ≤ buf.length`) this replaces exactly that range. -/
def writeBytes (buf : List Nat) (off : Nat) (bs : List Nat) : List Nat :=
  buf.take off ++ bs ++ buf.drop (off + bs.length)

/-- Little-endian bytes of a 16-bit store (`memcpy` of a `uint16_t`). -/
def le16 (n : Nat) : List Nat := [n % 256, n / 256 % 256]

/-- Little-endian bytes of a 32-bit store (`memcpy` of a `uint32_t`). -/
def le32 (n : Nat) : List Nat :=
  [n % 256, n / 256 % 256, n / 65536 % 256, n / 16777216 % 256]

/-- Little-endian bytes of a 64-bit store (`memcpy` of a `uint64_t`). -/
def le64 (n : Nat) : List Nat :=
  [n % 256, n / 256 % 256, n / 256 ^ 2 % 256, n / 256 ^ 3 % 256,
   n / 256 ^ 4 % 256, n / 256 ^ 5 % 256, n / 256 ^ 6 % 256, n / 256 ^ 7 % 256]

/-- The two bytes stored for the `int16_t` field `gain_db` (two's complement,
little-endian). -/
def int16Bytes (g : Int) : List Nat := le16 (g % 65536).toNat

/-- `WriteOpusHeader(header, input_sample_rate, output, output_size)`.  The C
function returns the byte count (or -1) and fills the caller's buffer; here it
returns `some (buffer, count)` (the buffer is the whole `output_size`-byte
region, first `memset` to zero, then written field by field) or `none` on
failure. -/
def WriteOpusHeader (header : OpusHeader) (input_sample_rate : Nat)
    (output_size : Nat) : Option (List Nat × Nat) :=
  let total_size := kOpusHeaderStreamMapOffset + header.channels
  if output_size < total_size then
    none
  else
    let output := List.replicate output_size 0
    let output := writeBytes output kOpusHeaderLabelOffset opusHeadLabel
    let output := writeBytes output kOpusHeaderVersionOffset [1]
    let output := writeBytes output kOpusHeaderChannelsOffset
      [header.channels % 256]
    let output := writeBytes output kOpusHeaderSkipSamplesOffset
      (le16 header.skip_samples)
    let output := writeBytes output kOpusHeaderSampleRateOffset
      (le32 input_sample_rate)
    let output := writeBytes output kOpusHeaderGainOffset
      (int16Bytes header.gain_db)
    if 2 < header.channels then
      let output := writeBytes output kOpusHeaderChannelMappingOffset [1]
      let output := writeBytes output kOpusHeaderNumStreamsOffset
        [header.channels % 256]
      let output := writeBytes output kOpusHeaderNumCoupledStreamsOffset [0]
      let output := writeBytes output kOpusHeaderStreamMapOffset
        ((List.range header.channels).map fun i =>
          (kOpusChannelMap.getD (header.channels - 1) []).getD i 0)
      some (output, kOpusHeaderStreamMapOffset + header.channels + 1)
    else
      let output := writeBytes output kOpusHeaderChannelMappingOffset [0]
      some (output, kOpusHeaderChannelMappingOffset + 1)

/-- `AOPUS_MARKER_SIZE` (8), from `OpusHeader.h`; the markers are 8 ASCII
bytes (source comment, lines 200-211). -/
def AOPUS_MARKER_SIZE : Nat := 8

/-- `AOPUS_LENGTH_SIZE` (8): size of the length field of a trailer record. -/
def AOPUS_LENGTH_SIZE : Nat := 8

/-- `AOPUS_CSD_SIZE` (8): size of the payload of a trailer record. -/
def AOPUS_CSD_SIZE : Nat := 8

/-- `AOPUS_LENGTH` (8): the literal value stored in the length field
("Length should be 8", source comment line 210). -/
def AOPUS_LENGTH : Nat := 8

/-- `AOPUS_TOTAL_CSD_SIZE` (24): one whole trailer record,
marker + length + payload. -/
def AOPUS_TOTAL_CSD_SIZE : Nat :=
  AOPUS_MARKER_SIZE + AOPUS_LENGTH_SIZE + AOPUS_CSD_SIZE

/-- Modelled from the spec: `AOPUS_UNIFIED_CSD_MINSIZE` is defined in
`OpusHeader.h`, which is not among the sources.  Per the spec, the unified
blob minimum is the minimal header (19 bytes, the base header size of the
data model) plus the two 24-byte trailer records: 67. -/
def AOPUS_UNIFIED_CSD_MINSIZE : Nat := kOpusHeaderSize + 2 * AOPUS_TOTAL_CSD_SIZE

/-- The ASCII bytes of `AOPUS_CSD_CODEC_DELAY_MARKER`, `"AOPUSDLY"`
(source comment line 207). -/
def AOPUS_CSD_CODEC_DELAY_MARKER : List Nat := [65, 79, 80, 85, 83, 68, 76, 89]

/-- The ASCII bytes of `AOPUS_CSD_SEEK_PREROLL_MARKER`, `"AOPUSPRL"`
(source comment line 208). -/
def AOPUS_CSD_SEEK_PREROLL_MARKER : List Nat := [65, 79, 80, 85, 83, 80, 82, 76]

/-- `WriteOpusHeaders(header, inputSampleRate, output, outputSize, codecDelay,
seekPreRoll)`: writes the header then appends the codec-delay record and the
seek-preroll record; returns `some (buffer, total)` or `none` on failure. -/
def WriteOpusHeaders (header : OpusHeader) (inputSampleRate : Nat)
    (outputSize : Nat) (codecDelay seekPreRoll : Nat) :
    Option (List Nat × Nat) :=
  if outputSize < AOPUS_UNIFIED_CSD_MINSIZE then
    none
  else
    match WriteOpusHeader header inputSampleRate outputSize with
    | none => none
    | some (output, headerLen) =>
      if outputSize - 2 * AOPUS_TOTAL_CSD_SIZE ≤ headerLen then
        none
      else
        let output := writeBytes output headerLen AOPUS_CSD_CODEC_DELAY_MARKER
        let output := writeBytes output (headerLen + AOPUS_MARKER_SIZE)
          (le64 AOPUS_LENGTH)
        let output := writeBytes output
          (headerLen + AOPUS_MARKER_SIZE + AOPUS_LENGTH_SIZE) (le64 codecDelay)
        let output := writeBytes output (headerLen + AOPUS_TOTAL_CSD_SIZE)
          AOPUS_CSD_SEEK_PREROLL_MARKER
        let output := writeBytes output
          (headerLen + AOPUS_TOTAL_CSD_SIZE + AOPUS_MARKER_SIZE)
          (le64 AOPUS_LENGTH)
        let output := writeBytes output
          (headerLen + AOPUS_TOTAL_CSD_SIZE + AOPUS_MARKER_SIZE +
            AOPUS_LENGTH_SIZE) (le64 seekPreRoll)
        some (output, headerLen + 2 * AOPUS_TOTAL_CSD_SIZE)

/-- The result views of `GetOpusHeaderBuffers`.  The head view always starts
at offset 0, so only its size is recorded; the two optional views are each
`AOPUS_CSD_SIZE` (8) bytes long, so only their start offsets are recorded
(`none` models the `NULL` pointer / size 0 output). -/
structure OpusCsdViews where
  opusHeadSize : Nat
  codecDelayOff : Option Nat
  seekPreRollOff : Option Nat
deriving DecidableEq, Repr

/-- `memcmp(data + i, marker, AOPUS_MARKER_SIZE) == 0`. -/
def matchesAt (data : List Nat) (i : Nat) (marker : List Nat) : Bool :=
  (List.range AOPUS_MARKER_SIZE).all fun j => byteAt data (i + j) == marker.getD j 0

/-- The scan loop of `GetOpusHeaderBuffers` (`while (i < data_size -
AOPUS_TOTAL_CSD_SIZE)`), with an explicit fuel.  Each iteration consumes one
unit of fuel and advances `i` by at least 1, and the loop runs only while
`i < data_size`, so any fuel of at least `data_size` makes the fuel cutoff
unreachable and the function agree with the C loop. -/
def scanLoop (data : List Nat) (data_size : Nat) :
    Nat → Nat → OpusCsdViews → OpusCsdViews
  | _, 0, st => st
  | i, fuel + 1, st =>
    if i < data_size - AOPUS_TOTAL_CSD_SIZE then
      if matchesAt data i AOPUS_CSD_CODEC_DELAY_MARKER then
        scanLoop data data_size (i + AOPUS_TOTAL_CSD_SIZE) fuel
          { st with opusHeadSize := min st.opusHeadSize i,
                    codecDelayOff := some (i + AOPUS_MARKER_SIZE + AOPUS_LENGTH_SIZE) }
      else if matchesAt data i AOPUS_CSD_SEEK_PREROLL_MARKER then
        scanLoop data data_size (i + AOPUS_TOTAL_CSD_SIZE) fuel
          { st with opusHeadSize := min st.opusHeadSize i,
                    seekPreRollOff := some (i + AOPUS_MARKER_SIZE + AOPUS_LENGTH_SIZE) }
      else
        scanLoop data data_size (i + 1) fuel st
    else st

/-- `GetOpusHeaderBuffers(data, data_size, ...)`: initializes the head view to
the whole input and both optional views to absent, then scans for trailer
records when the input is at least the unified minimum size. -/
def GetOpusHeaderBuffers (data : List Nat) (data_size : Nat) : OpusCsdViews :=
  let st : OpusCsdViews :=
    { opusHeadSize := data_size, codecDelayOff := none, seekPreRollOff := none }
  if AOPUS_UNIFIED_CSD_MINSIZE ≤ data_size then
    scanLoop data data_size 0 data_size st
  else st

/-- The mapping tail the writer produces: family byte, stream count, coupled
count and the canonical stream map for `channels > 2`; the single family byte 0
otherwise. -/
def opusHeaderTail (h : OpusHeader) : List Nat :=
  if 2 < h.channels then
    [1, h.channels % 256, 0] ++
      ((List.range h.channels).map fun i =>
        (kOpusChannelMap.getD (h.channels - 1) []).getD i 0)
  else [0]

/-- The bytes `WriteOpusHeader` lays down, without the trailing zero fill. -/
def opusHeaderBytes (h : OpusHeader) (rate : Nat) : List Nat :=
  opusHeadLabel ++ [1, h.channels % 256] ++ le16 h.skip_samples ++ le32 rate ++
    int16Bytes h.gain_db ++ opusHeaderTail h

/-- Write then parse, keeping the parsed record: the composition examined by
the round-trip claim. -/
def roundTrip (h : OpusHeader) (rate cap : Nat) : Option OpusHeader :=
  match WriteOpusHeader h rate cap with
  | some (buf, n) => (ParseOpusHeader buf n).toOption
  | none => none

/-- Unified write then split: the composition examined by the unified-CSD
claims. -/
def unifiedViews (h : OpusHeader) (rate cap d p : Nat) : Option OpusCsdViews :=
  (WriteOpusHeaders h rate cap d p).map fun q => GetOpusHeaderBuffers q.1 q.2

lemma writeBytes_chunk0 (bs : List Nat) (n m k : Nat)
    (hm : bs.length = m) (hk : n - m = k) :
    writeBytes (List.replicate n 0) 0 bs = bs ++ List.replicate k 0 := by
  subst hm hk
  simp [writeBytes]

lemma writeBytes_chunk (P bs : List Nat) (n o m k : Nat)
    (ho : P.length = o) (hm : bs.length = m) (hk : n - m = k) :
    writeBytes (P ++ List.replicate n 0) o bs = (P ++ bs) ++ List.replicate k 0 := by
  subst ho hm hk
  simp [writeBytes, List.append_assoc]

lemma byteAt_append_of_le (l₁ l₂ : List Nat) (i : Nat) (hle : l₁.length ≤ i) :
    byteAt (l₁ ++ l₂) i = byteAt l₂ (i - l₁.length) := by
  unfold byteAt
  rw [List.getD_append_right _ _ _ _ hle]

lemma byteAt_append_of_lt (l₁ l₂ : List Nat) (i : Nat) (hlt : i < l₁.length) :
    byteAt (l₁ ++ l₂) i = byteAt l₁ i := by
  unfold byteAt
  rw [List.getD_append _ _ _ _ hlt]

/-- `WriteOpusHeader`, normalized: with sufficient capacity it produces the
header bytes followed by the zero fill left over from the initial `memset`,
returning `19` for at most two channels and `21 + channels + 1` otherwise. -/
lemma WriteOpusHeader_eq (h : OpusHeader) (rate cap : Nat)
    (hcap : kOpusHeaderStreamMapOffset + h.channels ≤ cap) :
    WriteOpusHeader h rate cap =
      some (opusHeaderBytes h rate ++
              List.replicate (cap - (if 2 < h.channels then 21 + h.channels else 19)) 0,
            if 2 < h.channels then 21 + h.channels + 1 else 19) := by
  simp only [kOpusHeaderStreamMapOffset] at hcap
  simp only [WriteOpusHeader, kOpusHeaderLabelOffset, kOpusHeaderVersionOffset,
    kOpusHeaderChannelsOffset, kOpusHeaderSkipSamplesOffset, kOpusHeaderSampleRateOffset,
    kOpusHeaderGainOffset, kOpusHeaderChannelMappingOffset, kOpusHeaderNumStreamsOffset,
    kOpusHeaderNumCoupledStreamsOffset, kOpusHeaderStreamMapOffset]
  rw [if_neg (by omega)]
  rw [writeBytes_chunk0 opusHeadLabel cap 8 (cap - 8) rfl rfl]
  rw [writeBytes_chunk opusHeadLabel [1] (cap - 8) 8 1 (cap - 9) (by simp [opusHeadLabel, le16, le32, int16Bytes]) (by simp [le16, le32, int16Bytes]) (by omega)]
  rw [writeBytes_chunk (opusHeadLabel ++ [1]) [h.channels % 256] (cap - 9) 9 1
    (cap - 10) (by simp [opusHeadLabel, le16, le32, int16Bytes]) (by simp [le16, le32, int16Bytes]) (by omega)]
  rw [writeBytes_chunk ((opusHeadLabel ++ [1]) ++ [h.channels % 256])
    (le16 h.skip_samples) (cap - 10) 10 2 (cap - 12) (by simp [opusHeadLabel, le16, le32, int16Bytes]) (by simp [le16, le32, int16Bytes]) (by omega)]
  rw [writeBytes_chunk (((opusHeadLabel ++ [1]) ++ [h.channels % 256]) ++
    le16 h.skip_samples) (le32 rate) (cap - 12) 12 4 (cap - 16) (by simp [opusHeadLabel, le16, le32, int16Bytes]) (by simp [le16, le32, int16Bytes]) (by omega)]
  rw [writeBytes_chunk ((((opusHeadLabel ++ [1]) ++ [h.channels % 256]) ++
    le16 h.skip_samples) ++ le32 rate) (int16Bytes h.gain_db) (cap - 16) 16 2
    (cap - 18) (by simp [opusHeadLabel, le16, le32, int16Bytes]) (by simp [le16, le32, int16Bytes]) (by omega)]
  by_cases hch : 2 < h.channels
  · rw [if_pos hch, if_pos hch, if_pos hch]
    rw [writeBytes_chunk (((((opusHeadLabel ++ [1]) ++ [h.channels % 256]) ++
      le16 h.skip_samples) ++ le32 rate) ++ int16Bytes h.gain_db) [1] (cap - 18) 18 1
      (cap - 19) (by simp [opusHeadLabel, le16, le32, int16Bytes]) (by simp [le16, le32, int16Bytes]) (by omega)]
    rw [writeBytes_chunk ((((((opusHeadLabel ++ [1]) ++ [h.channels % 256]) ++
      le16 h.skip_samples) ++ le32 rate) ++ int16Bytes h.gain_db) ++ [1])
      [h.channels % 256] (cap - 19) 19 1 (cap - 20) (by simp [opusHeadLabel, le16, le32, int16Bytes]) (by simp [le16, le32, int16Bytes]) (by omega)]
    rw [writeBytes_chunk (((((((opusHeadLabel ++ [1]) ++ [h.channels % 256]) ++
      le16 h.skip_samples) ++ le32 rate) ++ int16Bytes h.gain_db) ++ [1]) ++
      [h.channels % 256]) [0] (cap - 20) 20 1 (cap - 21) (by simp [opusHeadLabel, le16, le32, int16Bytes]) (by simp [le16, le32, int16Bytes]) (by omega)]
    rw [writeBytes_chunk ((((((((opusHeadLabel ++ [1]) ++ [h.channels % 256]) ++
      le16 h.skip_samples) ++ le32 rate) ++ int16Bytes h.gain_db) ++ [1]) ++
      [h.channels % 256]) ++ [0])
      ((List.range h.channels).map fun i =>
        (kOpusChannelMap.getD (h.channels - 1) []).getD i 0)
      (cap - 21) 21 h.channels (cap - (21 + h.channels)) (by simp [opusHeadLabel, le16, le32, int16Bytes]) (by simp) (by omega)]
    simp [opusHeaderBytes, opusHeaderTail, hch, List.append_assoc]
  · rw [if_neg hch, if_neg hch, if_neg hch]
    rw [writeBytes_chunk (((((opusHeadLabel ++ [1]) ++ [h.channels % 256]) ++
      le16 h.skip_samples) ++ le32 rate) ++ int16Bytes h.gain_db) [0] (cap - 18) 18 1
      (cap - 19) (by simp [opusHeadLabel, le16, le32, int16Bytes]) (by simp [le16, le32, int16Bytes]) (by omega)]
    simp [opusHeaderBytes, opusHeaderTail, hch, List.append_assoc]

lemma opusHeaderBytes_def (h : OpusHeader) (rate : Nat) :
    opusHeaderBytes h rate =
      79 :: 112 :: 117 :: 115 :: 72 :: 101 :: 97 :: 100 :: 1 :: (h.channels % 256) ::
      (h.skip_samples % 256) :: (h.skip_samples / 256 % 256) ::
      (rate % 256) :: (rate / 256 % 256) :: (rate / 65536 % 256) :: (rate / 16777216 % 256) ::
      ((h.gain_db % 65536).toNat % 256) :: ((h.gain_db % 65536).toNat / 256 % 256) ::
      opusHeaderTail h := rfl

lemma getD_lt_256 (l : List Nat) (hl : ∀ x ∈ l, x < 256) (i : Nat) : l.getD i 0 < 256 := by
  induction l generalizing i with
  | nil => simp [List.getD]
  | cons a t ih =>
    cases i with
    | zero => simpa using hl a (by simp)
    | succ j => simpa [List.getD] using ih (fun x hx => hl x (by simp [hx])) j

lemma kOpusChannelMap_row_lt (c i : Nat) : (kOpusChannelMap.getD c []).getD i 0 < 256 := by
  rcases c with _|_|_|_|_|_|_|_|c
  · exact getD_lt_256 _ (by decide) i
  · exact getD_lt_256 _ (by decide) i
  · exact getD_lt_256 _ (by decide) i
  · exact getD_lt_256 _ (by decide) i
  · exact getD_lt_256 _ (by decide) i
  · exact getD_lt_256 _ (by decide) i
  · exact getD_lt_256 _ (by decide) i
  · exact getD_lt_256 _ (by decide) i
  · show (0:Nat) < 256
    decide

lemma toInt16_emod (g : Int) (h1 : -32768 ≤ g) (h2 : g < 32768) :
    toInt16 (g % 65536).toNat = g := by
  unfold toInt16
  have e0 : 0 ≤ g % 65536 := Int.emod_nonneg g (by norm_num)
  have e1 : g % 65536 < 65536 := Int.emod_lt_of_pos g (by norm_num)
  have e2 : g % 65536 = g ∨ g % 65536 = g + 65536 := by omega
  split <;> omega

lemma opusHeaderTail_pos (h : OpusHeader) (hch : 2 < h.channels) :
    opusHeaderTail h = 1 :: (h.channels % 256) :: 0 ::
      ((List.range h.channels).map fun i =>
        (kOpusChannelMap.getD (h.channels - 1) []).getD i 0) := by
  unfold opusHeaderTail
  rw [if_pos hch]
  rfl

lemma byteAt_written_family_pos (h : OpusHeader) (rate k : Nat) (hch : 2 < h.channels) :
    byteAt (opusHeaderBytes h rate ++ List.replicate k 0) 18 = 1 := by
  have e : byteAt (opusHeaderBytes h rate ++ List.replicate k 0) 18
      = byteAt (opusHeaderTail h ++ List.replicate k 0) 0 := rfl
  rw [e, opusHeaderTail_pos h hch]
  rfl

lemma byteAt_written_family_neg (h : OpusHeader) (rate k : Nat) (hch : ¬ 2 < h.channels) :
    byteAt (opusHeaderBytes h rate ++ List.replicate k 0) 18 = 0 := by
  have e : byteAt (opusHeaderBytes h rate ++ List.replicate k 0) 18
      = byteAt (opusHeaderTail h ++ List.replicate k 0) 0 := rfl
  have ht : opusHeaderTail h = [0] := by
    unfold opusHeaderTail
    rw [if_neg hch]
  rw [e, ht]
  rfl

lemma byteAt_written_streams (h : OpusHeader) (rate k : Nat) (hch : 2 < h.channels)
    (h8 : h.channels ≤ kMaxChannels) :
    byteAt (opusHeaderBytes h rate ++ List.replicate k 0) 19 = h.channels := by
  simp only [kMaxChannels] at h8
  have e : byteAt (opusHeaderBytes h rate ++ List.replicate k 0) 19
      = byteAt (opusHeaderTail h ++ List.replicate k 0) 1 := rfl
  rw [e, opusHeaderTail_pos h hch]
  show h.channels % 256 % 256 = h.channels
  omega

lemma byteAt_written_coupled (h : OpusHeader) (rate k : Nat) (hch : 2 < h.channels) :
    byteAt (opusHeaderBytes h rate ++ List.replicate k 0) 20 = 0 := by
  have e : byteAt (opusHeaderBytes h rate ++ List.replicate k 0) 20
      = byteAt (opusHeaderTail h ++ List.replicate k 0) 2 := rfl
  rw [e, opusHeaderTail_pos h hch]
  rfl

lemma byteAt_written_map (h : OpusHeader) (rate k : Nat) (hch : 2 < h.channels) :
    ∀ i, i < h.channels →
      byteAt (opusHeaderBytes h rate ++ List.replicate k 0) (21 + i)
        = (kOpusChannelMap.getD (h.channels - 1) []).getD i 0 := by
  have hsplit : opusHeaderBytes h rate ++ List.replicate k 0 =
      [79, 112, 117, 115, 72, 101, 97, 100, 1, h.channels % 256,
       h.skip_samples % 256, h.skip_samples / 256 % 256,
       rate % 256, rate / 256 % 256, rate / 65536 % 256, rate / 16777216 % 256,
       (h.gain_db % 65536).toNat % 256, (h.gain_db % 65536).toNat / 256 % 256,
       1, h.channels % 256, 0] ++
      (((List.range h.channels).map fun i =>
          (kOpusChannelMap.getD (h.channels - 1) []).getD i 0) ++
        List.replicate k 0) := by
    rw [opusHeaderBytes_def, opusHeaderTail_pos h hch]
    rfl
  intro i hi
  rw [hsplit, byteAt_append_of_le _ _ _ (by simp)]
  simp only [List.length_cons, List.length_nil]
  rw [show 21 + i - 21 = i by omega]
  rw [byteAt_append_of_lt _ _ _ (by simpa using hi)]
  show (((List.range h.channels).map fun i =>
      (kOpusChannelMap.getD (h.channels - 1) []).getD i 0)).getD i 0 % 256 = _
  rw [List.getD_eq_getElem?_getD, List.getElem?_map, List.getElem?_range hi]
  simp only [Option.map_some', Option.getD_some]
  exact Nat.mod_eq_of_lt (kOpusChannelMap_row_lt _ _)

lemma ParseOpusHeader_written (h : OpusHeader) (rate k n : Nat)
    (h1 : 1 ≤ h.channels) (h8 : h.channels ≤ kMaxChannels)
    (hn19 : kOpusHeaderSize ≤ n)
    (hnch : 2 < h.channels → kOpusHeaderStreamMapOffset + h.channels ≤ n) :
    ParseOpusHeader (opusHeaderBytes h rate ++ List.replicate k 0) n =
      .ok { channels := h.channels,
            skip_samples := h.skip_samples % 65536,
            gain_db := toInt16 (h.gain_db % 65536).toNat,
            channel_mapping := if 2 < h.channels then 1 else 0,
            num_streams := if 2 < h.channels then h.channels else 1,
            num_coupled := if 2 < h.channels then 0 else if 1 < h.channels then 1 else 0,
            stream_map := if 2 < h.channels then
                (List.range h.channels).map fun i =>
                  (kOpusChannelMap.getD (h.channels - 1) []).getD i 0
              else [0, 1] } := by
  simp only [kMaxChannels] at h8
  simp only [kOpusHeaderSize] at hn19
  simp only [kOpusHeaderStreamMapOffset] at hnch
  have b9 : byteAt (opusHeaderBytes h rate ++ List.replicate k 0) 9 = h.channels := by
    have e : byteAt (opusHeaderBytes h rate ++ List.replicate k 0) 9
        = h.channels % 256 % 256 := rfl
    rw [e]; omega
  have b10 : byteAt (opusHeaderBytes h rate ++ List.replicate k 0) 10
      = h.skip_samples % 256 := by
    have e : byteAt (opusHeaderBytes h rate ++ List.replicate k 0) 10
        = h.skip_samples % 256 % 256 := rfl
    rw [e]; omega
  have b11 : byteAt (opusHeaderBytes h rate ++ List.replicate k 0) 11
      = h.skip_samples / 256 % 256 := by
    have e : byteAt (opusHeaderBytes h rate ++ List.replicate k 0) 11
        = h.skip_samples / 256 % 256 % 256 := rfl
    rw [e]; omega
  have b16 : byteAt (opusHeaderBytes h rate ++ List.replicate k 0) 16
      = (h.gain_db % 65536).toNat % 256 := by
    have e : byteAt (opusHeaderBytes h rate ++ List.replicate k 0) 16
        = (h.gain_db % 65536).toNat % 256 % 256 := rfl
    rw [e]; omega
  have b17 : byteAt (opusHeaderBytes h rate ++ List.replicate k 0) 17
      = (h.gain_db % 65536).toNat / 256 % 256 := by
    have e : byteAt (opusHeaderBytes h rate ++ List.replicate k 0) 17
        = (h.gain_db % 65536).toNat / 256 % 256 % 256 := rfl
    rw [e]; omega
  have r10 : ReadLE16 (opusHeaderBytes h rate ++ List.replicate k 0) n 10
      = h.skip_samples % 65536 := by
    unfold ReadLE16
    rw [if_neg (by omega), b10, b11]
    omega
  have hm : (h.gain_db % 65536).toNat < 65536 := by
    have e0 : 0 ≤ h.gain_db % 65536 := Int.emod_nonneg _ (by norm_num)
    have e1 : h.gain_db % 65536 < 65536 := Int.emod_lt_of_pos _ (by norm_num)
    omega
  have r16 : ReadLE16 (opusHeaderBytes h rate ++ List.replicate k 0) n 16
      = (h.gain_db % 65536).toNat := by
    unfold ReadLE16
    rw [if_neg (by omega), b16, b17]
    omega
  by_cases hch : 2 < h.channels
  · have b18 := byteAt_written_family_pos h rate k hch
    have b19 := byteAt_written_streams h rate k hch (by simpa [kMaxChannels] using h8)
    have b20 := byteAt_written_coupled h rate k hch
    have b21 := byteAt_written_map h rate k hch
    simp only [ParseOpusHeader, kOpusHeaderSize, kOpusHeaderChannelsOffset,
      kOpusHeaderSkipSamplesOffset, kOpusHeaderGainOffset,
      kOpusHeaderChannelMappingOffset, kMaxChannels, kMaxChannelsWithDefaultLayout,
      kOpusHeaderNumStreamsOffset, kOpusHeaderNumCoupledStreamsOffset,
      kOpusHeaderStreamMapOffset]
    rw [if_neg (by omega)]
    simp only [b9, r10, r16, b18, b19, b20]
    rw [if_neg (by omega : ¬ (h.channels < 1 ∨ 8 < h.channels))]
    rw [if_neg (by omega : ¬ (1 : Nat) = 0)]
    rw [if_neg (by omega : ¬ n < 21 + h.channels)]
    rw [if_neg (by omega : ¬ h.channels + 0 ≠ h.channels)]
    have emap : (List.range h.channels).map
        (fun i => byteAt (opusHeaderBytes h rate ++ List.replicate k 0) (21 + i)) =
        (List.range h.channels).map
          (fun i => (kOpusChannelMap.getD (h.channels - 1) []).getD i 0) :=
      List.map_congr_left fun i hi => b21 i (List.mem_range.mp hi)
    simp [hch, emap]
  · have b18 := byteAt_written_family_neg h rate k hch
    simp only [ParseOpusHeader, kOpusHeaderSize, kOpusHeaderChannelsOffset,
      kOpusHeaderSkipSamplesOffset, kOpusHeaderGainOffset,
      kOpusHeaderChannelMappingOffset, kMaxChannels, kMaxChannelsWithDefaultLayout,
      kOpusHeaderNumStreamsOffset, kOpusHeaderNumCoupledStreamsOffset,
      kOpusHeaderStreamMapOffset]
    rw [if_neg (by omega)]
    simp only [b9, r10, r16, b18]
    rw [if_neg (by omega : ¬ (h.channels < 1 ∨ 8 < h.channels))]
    simp [hch]

lemma opusHeaderBytes_length (h : OpusHeader) (rate : Nat) :
    (opusHeaderBytes h rate).length = if 2 < h.channels then 21 + h.channels else 19 := by
  by_cases hch : 2 < h.channels
  · simp [opusHeaderBytes, opusHeaderTail, opusHeadLabel, le16, le32, int16Bytes, hch]
    omega
  · simp [opusHeaderBytes, opusHeaderTail, opusHeadLabel, le16, le32, int16Bytes, hch]

set_option maxRecDepth 4000

/-- C1 (counterexample): the claim fails as stated.  The header with 3
channels, `channel_mapping = 1`, `num_streams = 2`, `num_coupled = 1`
satisfies the claimed data-model invariants, yet writing and re-parsing it
yields `num_streams = 3`, not the original 2 (the writer ignores the record's
`num_streams`/`num_coupled` and always encodes `num_streams = channels`,
`num_coupled = 0`). -/
theorem c1_roundTrip_counterexample :
    (roundTrip ⟨3, 0, 0, 1, 2, 1, [0, 1, 2]⟩ 48000 24).map OpusHeader.num_streams = some 3 ∧
    (⟨3, 0, 0, 1, 2, 1, [0, 1, 2]⟩ : OpusHeader).num_streams = 2 := by
  constructor
  · decide
  · rfl

/-- C1 (amended): the round trip `parse (write h rate)` with the returned byte
count as parse length reproduces every field for canonical headers: channels
in 1..8, 16-bit `skip_samples` and `gain_db`, and the mapping fields the
writer actually encodes (`channel_mapping = 0` for at most 2 channels;
`channel_mapping = 1`, `num_streams = channels`, `num_coupled = 0` and the
canonical table row as `stream_map` for more), with the parser's synthesized
defaults standing in for `num_streams`/`num_coupled`/`stream_map` when
`channels ≤ 2`. -/
theorem c1_roundTrip (h : OpusHeader) (rate cap : Nat)
    (h1 : 1 ≤ h.channels) (h8 : h.channels ≤ kMaxChannels)
    (hskip : h.skip_samples < 65536)
    (hgl : -32768 ≤ h.gain_db) (hgu : h.gain_db < 32768)
    (hmap0 : h.channels ≤ 2 → h.channel_mapping = 0)
    (hmap1 : 2 < h.channels → h.channel_mapping = 1 ∧ h.num_streams = h.channels ∧
      h.num_coupled = 0 ∧ h.stream_map = (List.range h.channels).map fun i =>
        (kOpusChannelMap.getD (h.channels - 1) []).getD i 0)
    (hcap : kOpusHeaderStreamMapOffset + h.channels ≤ cap) :
    ∃ buf n, WriteOpusHeader h rate cap = some (buf, n) ∧
      ParseOpusHeader buf n =
        .ok (if h.channels ≤ 2 then
              { h with num_streams := 1,
                       num_coupled := if 1 < h.channels then 1 else 0,
                       stream_map := [0, 1] }
             else h) := by
  rw [WriteOpusHeader_eq h rate cap hcap]
  refine ⟨_, _, rfl, ?_⟩
  rw [ParseOpusHeader_written h rate _ _ h1 h8 (by unfold kOpusHeaderSize; split <;> omega)
    (fun hch => by rw [if_pos hch]; simp [kOpusHeaderStreamMapOffset])]
  by_cases hch : 2 < h.channels
  · obtain ⟨hm1, hs, hc, hsm⟩ := hmap1 hch
    obtain ⟨ch, sk, g, cm, ns, nc, sm⟩ := h
    simp only at hm1 hs hc hsm hskip hgl hgu hch
    simp [hch, show ¬ ch ≤ 2 by omega, hm1, hs, hc, hsm,
      Nat.mod_eq_of_lt hskip, toInt16_emod g hgl hgu]
  · obtain ⟨ch, sk, g, cm, ns, nc, sm⟩ := h
    simp only at hmap0 hskip hgl hgu hch
    simp [hch, show ch ≤ 2 by omega, hmap0 (show ch ≤ 2 by omega),
      Nat.mod_eq_of_lt hskip, toInt16_emod g hgl hgu]

/-- C1 (witness): the amended round trip at a concrete canonical 6-channel
header. -/
theorem c1_roundTrip_witness :
    ∃ buf n,
      WriteOpusHeader ⟨6, 312, -7, 1, 6, 0, [0, 4, 1, 2, 3, 5]⟩ 48000 27 = some (buf, n) ∧
      ParseOpusHeader buf n = .ok ⟨6, 312, -7, 1, 6, 0, [0, 4, 1, 2, 3, 5]⟩ := by
  have := c1_roundTrip ⟨6, 312, -7, 1, 6, 0, [0, 4, 1, 2, 3, 5]⟩ 48000 27
    (by decide) (by decide) (by decide) (by decide) (by decide)
    (by decide) (by decide) (by decide)
  simpa using this

/-- C4: writer postcondition.  With capacity at least `21 + channels`, for
more than 2 channels `WriteOpusHeader` writes mapping family 1 at offset 18,
`num_streams = channels` at 19, `num_coupled = 0` at 20 and the canonical
table row at offsets 21..21+channels-1, returning `21 + channels + 1`; for at
most 2 channels it writes family 0 at offset 18 and returns 19. -/
theorem c4_writerPostcondition (h : OpusHeader) (rate cap : Nat)
    (h1 : 1 ≤ h.channels) (h8 : h.channels ≤ kMaxChannels)
    (hcap : kOpusHeaderStreamMapOffset + h.channels ≤ cap) :
    ∃ buf, WriteOpusHeader h rate cap =
        some (buf, if 2 < h.channels then kOpusHeaderStreamMapOffset + h.channels + 1
                   else kOpusHeaderChannelMappingOffset + 1) ∧
      (2 < h.channels →
        byteAt buf kOpusHeaderChannelMappingOffset = 1 ∧
        byteAt buf kOpusHeaderNumStreamsOffset = h.channels ∧
        byteAt buf kOpusHeaderNumCoupledStreamsOffset = 0 ∧
        ∀ i, i < h.channels →
          byteAt buf (kOpusHeaderStreamMapOffset + i) =
            (kOpusChannelMap.getD (h.channels - 1) []).getD i 0) ∧
      (h.channels ≤ 2 → byteAt buf kOpusHeaderChannelMappingOffset = 0) := by
  rw [WriteOpusHeader_eq h rate cap hcap]
  refine ⟨opusHeaderBytes h rate ++
      List.replicate (cap - if 2 < h.channels then 21 + h.channels else 19) 0,
    by simp [kOpusHeaderStreamMapOffset, kOpusHeaderChannelMappingOffset], ?_, ?_⟩
  · intro hch
    simp only [kOpusHeaderChannelMappingOffset, kOpusHeaderNumStreamsOffset,
      kOpusHeaderNumCoupledStreamsOffset, kOpusHeaderStreamMapOffset]
    exact ⟨byteAt_written_family_pos h rate _ hch,
      byteAt_written_streams h rate _ hch h8,
      byteAt_written_coupled h rate _ hch,
      byteAt_written_map h rate _ hch⟩
  · intro hle
    simp only [kOpusHeaderChannelMappingOffset]
    exact byteAt_written_family_neg h rate _ (by omega)

/-- C4 (witness): the postcondition at a concrete 6-channel header, capacity
27 (the canonical row for 6 channels being {0, 4, 1, 2, 3, 5}), and at a
concrete stereo header. -/
theorem c4_writerPostcondition_witness :
    (∃ buf, WriteOpusHeader ⟨6, 0, 0, 1, 6, 0, [0, 4, 1, 2, 3, 5]⟩ 48000 27 =
        some (buf, 28) ∧
      byteAt buf 18 = 1 ∧ byteAt buf 19 = 6 ∧ byteAt buf 20 = 0 ∧
      byteAt buf 21 = 0 ∧ byteAt buf 22 = 4 ∧ byteAt buf 23 = 1 ∧
      byteAt buf 24 = 2 ∧ byteAt buf 25 = 3 ∧ byteAt buf 26 = 5) ∧
    (∃ buf, WriteOpusHeader ⟨2, 0, 0, 0, 1, 1, [0, 1]⟩ 48000 23 = some (buf, 19) ∧
      byteAt buf 18 = 0) := by
  constructor
  · obtain ⟨buf, he, hpos, _⟩ := c4_writerPostcondition ⟨6, 0, 0, 1, 6, 0, [0, 4, 1, 2, 3, 5]⟩
      48000 27 (by decide) (by decide) (by decide)
    obtain ⟨h18, h19, h20, hmap⟩ := hpos (by decide)
    exact ⟨buf, he, h18, h19, h20, hmap 0 (by decide), hmap 1 (by decide),
      hmap 2 (by decide), hmap 3 (by decide), hmap 4 (by decide), hmap 5 (by decide)⟩
  · obtain ⟨buf, he, _, hneg⟩ := c4_writerPostcondition ⟨2, 0, 0, 0, 1, 1, [0, 1]⟩
      48000 23 (by decide) (by decide) (by decide)
    exact ⟨buf, he, hneg (by decide)⟩

/-- C10: for 3..8 channels and capacity exactly `21 + channels`, the writer
succeeds (the capacity check compares against `21 + channels`) yet returns
`21 + channels + 1`, one byte more than the buffer it wrote and zero-filled. -/
theorem c10_returnExceedsCapacity (h : OpusHeader) (rate : Nat)
    (h3 : 2 < h.channels) :
    ∃ buf, WriteOpusHeader h rate (kOpusHeaderStreamMapOffset + h.channels) =
        some (buf, kOpusHeaderStreamMapOffset + h.channels + 1) ∧
      buf.length = kOpusHeaderStreamMapOffset + h.channels ∧
      buf.length < kOpusHeaderStreamMapOffset + h.channels + 1 := by
  rw [WriteOpusHeader_eq h rate _ (le_refl _)]
  have hlen : (opusHeaderBytes h rate ++
      List.replicate (kOpusHeaderStreamMapOffset + h.channels -
        (if 2 < h.channels then 21 + h.channels else 19)) 0).length =
      kOpusHeaderStreamMapOffset + h.channels := by
    simp [opusHeaderBytes_length, h3, kOpusHeaderStreamMapOffset]
  refine ⟨_, by simp [h3, kOpusHeaderStreamMapOffset], hlen, ?_⟩
  rw [hlen]
  omega

/-- C10 (witness): the exact-capacity writer call at a concrete 5-channel
header: capacity 26, returned count 27. -/
theorem c10_returnExceedsCapacity_witness :
    ∃ buf, WriteOpusHeader ⟨5, 0, 0, 1, 5, 0, [0, 4, 1, 2, 3]⟩ 48000 26 = some (buf, 27) ∧
      buf.length = 26 ∧ buf.length < 27 := by
  have := c10_returnExceedsCapacity ⟨5, 0, 0, 1, 5, 0, [0, 4, 1, 2, 3]⟩ 48000
    (by decide)
  simpa using this

/-- C5: bounds safety.  For any length below 19 the parser fails with
`tooSmall` and its result does not depend on any buffer byte; for any capacity
below `21 + channels` the writer fails producing no output; and on success the
writer's buffer is exactly `output_capacity` bytes, so no byte at or beyond
the capacity is written. -/
theorem c5_boundsSafety :
    (∀ data n, n < kOpusHeaderSize → ParseOpusHeader data n = .error .tooSmall) ∧
    (∀ data data2 n, n < kOpusHeaderSize →
      ParseOpusHeader data n = ParseOpusHeader data2 n) ∧
    (∀ h rate cap, cap < kOpusHeaderStreamMapOffset + h.channels →
      WriteOpusHeader h rate cap = none) ∧
    (∀ h rate cap buf n, WriteOpusHeader h rate cap = some (buf, n) →
      buf.length = cap) := by
  have p1 : ∀ data n, n < kOpusHeaderSize → ParseOpusHeader data n = .error .tooSmall := by
    intro data n hn
    unfold ParseOpusHeader
    rw [if_pos hn]
  have p3 : ∀ h rate cap, cap < kOpusHeaderStreamMapOffset + h.channels →
      WriteOpusHeader h rate cap = none := by
    intro h rate cap hcap
    unfold WriteOpusHeader
    rw [if_pos hcap]
  refine ⟨p1, fun data data2 n hn => by rw [p1 data n hn, p1 data2 n hn], p3, ?_⟩
  intro h rate cap buf n hw
  by_cases hcap : cap < kOpusHeaderStreamMapOffset + h.channels
  · rw [p3 h rate cap hcap] at hw
    exact absurd hw (by simp)
  · rw [WriteOpusHeader_eq h rate cap (by omega)] at hw
    obtain ⟨hbuf, -⟩ := Prod.mk.injEq .. ▸ (Option.some.injEq .. ▸ hw)
    subst hbuf
    simp only [kOpusHeaderStreamMapOffset] at hcap
    by_cases hch : 2 < h.channels
    · simp [opusHeaderBytes_length, hch]
      omega
    · simp [opusHeaderBytes_length, hch]
      omega

/-- C5 (witness): a 3-byte parse fails with `tooSmall` independently of the
bytes; a 1-channel writer call with capacity 21 fails; a successful writer
call with capacity 25 produces a 25-byte buffer. -/
theorem c5_boundsSafety_witness :
    ParseOpusHeader [79, 112, 117] 3 = .error .tooSmall ∧
    ParseOpusHeader [1, 2, 3] 18 = ParseOpusHeader [9, 9, 9] 18 ∧
    WriteOpusHeader ⟨1, 0, 0, 0, 1, 0, [0, 1]⟩ 48000 21 = none ∧
    (WriteOpusHeader ⟨1, 0, 0, 0, 1, 0, [0, 1]⟩ 48000 25).map (fun q => q.1.length) =
      some 25 := by
  refine ⟨c5_boundsSafety.1 _ _ (by decide), c5_boundsSafety.2.1 _ _ _ (by decide),
    c5_boundsSafety.2.2.1 _ _ _ (by decide), ?_⟩
  rcases hw : WriteOpusHeader ⟨1, 0, 0, 0, 1, 0, [0, 1]⟩ 48000 25 with _ | ⟨buf, n⟩
  · exact absurd hw (by decide)
  · rw [Option.map_some']
    simp [c5_boundsSafety.2.2.2 _ _ _ _ _ hw]

/-- C7: channel validation.  On any buffer of size at least 19, the parser
fails with `invalidChannelCount` exactly for a channel byte of 0 or above 8,
and never returns that failure for a channel byte in 1..8. -/
theorem c7_channelValidation (data : List Nat) (n : Nat) (hn : kOpusHeaderSize ≤ n) :
    ((byteAt data kOpusHeaderChannelsOffset = 0 ∨
        kMaxChannels < byteAt data kOpusHeaderChannelsOffset) →
      ParseOpusHeader data n = .error .invalidChannelCount) ∧
    (1 ≤ byteAt data kOpusHeaderChannelsOffset →
      byteAt data kOpusHeaderChannelsOffset ≤ kMaxChannels →
      ParseOpusHeader data n ≠ .error .invalidChannelCount) := by
  simp only [kOpusHeaderSize] at hn
  simp only [kMaxChannels, kOpusHeaderChannelsOffset]
  constructor
  · intro hbad
    unfold ParseOpusHeader
    simp only [kOpusHeaderSize, kMaxChannels, kOpusHeaderChannelsOffset]
    rw [if_neg (by omega), if_pos (by omega)]
  · intro hlo hhi
    unfold ParseOpusHeader
    simp only [kOpusHeaderSize, kMaxChannels, kOpusHeaderChannelsOffset,
      kMaxChannelsWithDefaultLayout]
    rw [if_neg (by omega), if_neg (by omega)]
    split_ifs <;> simp

/-- C7 (witness): channel bytes 0 and 9 are rejected with
`invalidChannelCount` on 19-byte buffers; channel byte 1 is not. -/
theorem c7_channelValidation_witness :
    ParseOpusHeader (List.replicate 19 0) 19 = .error .invalidChannelCount ∧
    ParseOpusHeader [0, 0, 0, 0, 0, 0, 0, 0, 0, 9, 0, 0, 0, 0, 0, 0, 0, 0, 0] 19 =
      .error .invalidChannelCount ∧
    ParseOpusHeader [0, 0, 0, 0, 0, 0, 0, 0, 0, 1, 0, 0, 0, 0, 0, 0, 0, 0, 0] 19 ≠
      .error .invalidChannelCount := by
  refine ⟨(c7_channelValidation _ _ (by decide)).1 (by decide),
    (c7_channelValidation _ _ (by decide)).1 (by decide),
    (c7_channelValidation _ _ (by decide)).2 (by decide) (by decide)⟩

/-- C8: mapping-path behavior.  On a buffer of size at least 19 with a nonzero
mapping byte and a channel byte in 1..8, the parser fails with
`bufferTooSmallForMapping` when the size is below `21 + channels`, fails with
`inconsistentMapping` when the stream and coupled bytes do not sum to the
channel byte, and otherwise succeeds, copying exactly `channels` stream-map
bytes verbatim from offset 21 with no validation of their values. -/
theorem c8_mappingPath (data : List Nat) (n : Nat) (hn : kOpusHeaderSize ≤ n)
    (hmap : byteAt data kOpusHeaderChannelMappingOffset ≠ 0)
    (hlo : 1 ≤ byteAt data kOpusHeaderChannelsOffset)
    (hhi : byteAt data kOpusHeaderChannelsOffset ≤ kMaxChannels) :
    (n < kOpusHeaderStreamMapOffset + byteAt data kOpusHeaderChannelsOffset →
      ParseOpusHeader data n = .error .bufferTooSmallForMapping) ∧
    (kOpusHeaderStreamMapOffset + byteAt data kOpusHeaderChannelsOffset ≤ n →
      byteAt data kOpusHeaderNumStreamsOffset +
          byteAt data kOpusHeaderNumCoupledStreamsOffset ≠
        byteAt data kOpusHeaderChannelsOffset →
      ParseOpusHeader data n = .error .inconsistentMapping) ∧
    (kOpusHeaderStreamMapOffset + byteAt data kOpusHeaderChannelsOffset ≤ n →
      byteAt data kOpusHeaderNumStreamsOffset +
          byteAt data kOpusHeaderNumCoupledStreamsOffset =
        byteAt data kOpusHeaderChannelsOffset →
      ParseOpusHeader data n = .ok
        { channels := byteAt data kOpusHeaderChannelsOffset,
          skip_samples := ReadLE16 data n kOpusHeaderSkipSamplesOffset,
          gain_db := toInt16 (ReadLE16 data n kOpusHeaderGainOffset),
          channel_mapping := byteAt data kOpusHeaderChannelMappingOffset,
          num_streams := byteAt data kOpusHeaderNumStreamsOffset,
          num_coupled := byteAt data kOpusHeaderNumCoupledStreamsOffset,
          stream_map := (List.range (byteAt data kOpusHeaderChannelsOffset)).map fun i =>
            byteAt data (kOpusHeaderStreamMapOffset + i) }) := by
  simp only [kOpusHeaderSize] at hn
  simp only [kMaxChannels, kOpusHeaderChannelsOffset] at hlo hhi
  simp only [kOpusHeaderChannelMappingOffset] at hmap
  simp only [kOpusHeaderStreamMapOffset, kOpusHeaderChannelsOffset,
    kOpusHeaderNumStreamsOffset, kOpusHeaderNumCoupledStreamsOffset,
    kOpusHeaderSkipSamplesOffset, kOpusHeaderGainOffset,
    kOpusHeaderChannelMappingOffset]
  refine ⟨?_, ?_, ?_⟩
  · intro hsmall
    unfold ParseOpusHeader
    simp only [kOpusHeaderSize, kMaxChannels, kOpusHeaderChannelsOffset,
      kOpusHeaderChannelMappingOffset, kOpusHeaderStreamMapOffset]
    rw [if_neg (by omega), if_neg (by omega), if_neg hmap, if_pos (by omega)]
  · intro hfit hbad
    unfold ParseOpusHeader
    simp only [kOpusHeaderSize, kMaxChannels, kOpusHeaderChannelsOffset,
      kOpusHeaderChannelMappingOffset, kOpusHeaderStreamMapOffset,
      kOpusHeaderNumStreamsOffset, kOpusHeaderNumCoupledStreamsOffset]
    rw [if_neg (by omega), if_neg (by omega), if_neg hmap, if_neg (by omega),
      if_pos hbad]
  · intro hfit hsum
    unfold ParseOpusHeader
    simp only [kOpusHeaderSize, kMaxChannels, kOpusHeaderChannelsOffset,
      kOpusHeaderChannelMappingOffset, kOpusHeaderStreamMapOffset,
      kOpusHeaderNumStreamsOffset, kOpusHeaderNumCoupledStreamsOffset,
      kOpusHeaderSkipSamplesOffset, kOpusHeaderGainOffset]
    rw [if_neg (by omega), if_neg (by omega), if_neg hmap, if_neg (by omega),
      if_neg (by omega)]

/-- C8 (witness): the three mapping-path outcomes on concrete buffers with
channel byte 3 and mapping byte 1: a 19-byte buffer is too small for the map;
a 24-byte buffer with streams + coupled = 1 + 1 is inconsistent; a 24-byte
buffer with streams 2, coupled 1 and map bytes {200, 6, 7} parses, keeping the
out-of-range map byte 200 verbatim. -/
theorem c8_mappingPath_witness :
    ParseOpusHeader [0, 0, 0, 0, 0, 0, 0, 0, 0, 3, 0, 0, 0, 0, 0, 0, 0, 0, 1] 19 =
      .error .bufferTooSmallForMapping ∧
    ParseOpusHeader [0, 0, 0, 0, 0, 0, 0, 0, 0, 3, 0, 0, 0, 0, 0, 0, 0, 0, 1, 1, 1, 0, 1, 2] 24 =
      .error .inconsistentMapping ∧
    ParseOpusHeader [0, 0, 0, 0, 0, 0, 0, 0, 0, 3, 0, 0, 0, 0, 0, 0, 0, 0, 1, 2, 1, 200, 6, 7] 24 =
      .ok ⟨3, 0, 0, 1, 2, 1, [200, 6, 7]⟩ := by
  refine ⟨(c8_mappingPath _ _ (by decide) (by decide) (by decide) (by decide)).1 (by decide),
    (c8_mappingPath _ _ (by decide) (by decide) (by decide) (by decide)).2.1
      (by decide) (by decide), ?_⟩
  rw [(c8_mappingPath _ _ (by decide) (by decide) (by decide) (by decide)).2.2
    (by decide) (by decide)]
  simp only [Except.ok.injEq]
  decide

/-- C9: the lenient 16-bit reader returns 0 whenever the second byte it needs
lies at an index at or past the length, returns the little-endian value
`data[off] + 256 * data[off+1]` when both bytes are in bounds, and the
parser's success or failure never depends on the four bytes these two fields
occupy (offsets 10, 11, 16, 17). -/
theorem c9_lenientRead :
    (∀ data n off, n ≤ off + 1 → ReadLE16 data n off = 0) ∧
    (∀ data n off, off + 1 < n →
      ReadLE16 data n off = byteAt data off + 256 * byteAt data (off + 1)) ∧
    (∀ data data2 n,
      (∀ i, i ≠ 10 → i ≠ 11 → i ≠ 16 → i ≠ 17 → data.getD i 0 = data2.getD i 0) →
      (ParseOpusHeader data n).isOk = (ParseOpusHeader data2 n).isOk) := by
  refine ⟨?_, ?_, ?_⟩
  · intro data n off hsmall
    unfold ReadLE16
    rw [if_pos hsmall]
  · intro data n off hfit
    unfold ReadLE16
    rw [if_neg (by omega)]
  · intro data data2 n hagree
    have e9 : byteAt data 9 = byteAt data2 9 := by
      unfold byteAt
      rw [hagree 9 (by omega) (by omega) (by omega) (by omega)]
    have e18 : byteAt data 18 = byteAt data2 18 := by
      unfold byteAt
      rw [hagree 18 (by omega) (by omega) (by omega) (by omega)]
    have e19 : byteAt data 19 = byteAt data2 19 := by
      unfold byteAt
      rw [hagree 19 (by omega) (by omega) (by omega) (by omega)]
    have e20 : byteAt data 20 = byteAt data2 20 := by
      unfold byteAt
      rw [hagree 20 (by omega) (by omega) (by omega) (by omega)]
    unfold ParseOpusHeader
    simp only [kOpusHeaderSize, kMaxChannels, kOpusHeaderChannelsOffset,
      kOpusHeaderChannelMappingOffset, kOpusHeaderStreamMapOffset,
      kOpusHeaderNumStreamsOffset, kOpusHeaderNumCoupledStreamsOffset,
      kMaxChannelsWithDefaultLayout]
    simp only [e9, e18, e19, e20]
    split_ifs <;> simp [Except.isOk, Except.toBool]

/-- C9 (witness): a truncated read at offset 16 with length 17 yields 0; an
in-bounds read is little-endian; two 19-byte buffers differing only at offsets
10, 11, 16, 17 parse with the same success. -/
theorem c9_lenientRead_witness :
    ReadLE16 [0, 0, 0, 0, 0, 0, 0, 0, 0, 1, 0, 0, 0, 0, 0, 0, 44] 17 16 = 0 ∧
    ReadLE16 [7, 13] 2 0 = 7 + 256 * 13 ∧
    (ParseOpusHeader [0, 0, 0, 0, 0, 0, 0, 0, 0, 1, 0, 0, 0, 0, 0, 0, 0, 0, 0] 19).isOk =
      (ParseOpusHeader [0, 0, 0, 0, 0, 0, 0, 0, 0, 1, 255, 255, 0, 0, 0, 0, 255, 255, 0] 19).isOk := by
  refine ⟨c9_lenientRead.1 _ _ _ (by decide), ?_, ?_⟩
  · rw [c9_lenientRead.2.1 _ _ _ (by decide)]
    decide
  · refine c9_lenientRead.2.2 _ _ _ ?_
    intro i h10 h11 h16 h17
    by_cases hlt : i < 19
    · interval_cases i <;> simp_all
    · rw [List.getD_eq_default _ _ (by simp; omega),
        List.getD_eq_default _ _ (by simp; omega)]

set_option maxRecDepth 10000

/-- C2 (code bug): the unified round trip loses the seek-preroll record.  For
the mono header written with capacity 68 (delay 5, preroll 10),
`WriteOpusHeaders` returns 67 bytes with the seek-preroll record at offsets
43..66, ending exactly at the returned length; `GetOpusHeaderBuffers` on that
buffer and length returns the correct 19-byte head view and the codec-delay
view at offset 35, but an absent seek-preroll view, because its scan stops
strictly before offset `length - 24` where the writer put the record. -/
theorem c2_unifiedRoundTrip_bug :
    unifiedViews ⟨1, 0, 0, 0, 1, 0, [0, 1]⟩ 48000 68 5 10 =
      some { opusHeadSize := 19, codecDelayOff := some 35, seekPreRollOff := none } ∧
    (WriteOpusHeaders ⟨1, 0, 0, 0, 1, 0, [0, 1]⟩ 48000 68 5 10).map Prod.snd = some 67 ∧
    (WriteOpusHeaders ⟨1, 0, 0, 0, 1, 0, [0, 1]⟩ 48000 68 5 10).map
        (fun q => (q.1.drop 43).take 8) = some AOPUS_CSD_SEEK_PREROLL_MARKER := by
  refine ⟨by decide, by decide, by decide⟩

/-- C3 (code bug): the splitter never examines offset `length - 24`.  On a
67-byte buffer that is zero except for a well-formed seek-preroll record
(marker, length 8, value 7) at offset 43 = 67 - 24, `GetOpusHeaderBuffers`
reports no seek-preroll view at all: its loop runs only while
`i < data_size - 24`, so the final offset is never compared against the
markers. -/
theorem c3_scanMissesLastOffset_bug :
    GetOpusHeaderBuffers
        (List.replicate 43 0 ++ AOPUS_CSD_SEEK_PREROLL_MARKER ++ le64 8 ++ le64 7) 67 =
      { opusHeadSize := 67, codecDelayOff := none, seekPreRollOff := none } ∧
    (List.replicate 43 0 ++ AOPUS_CSD_SEEK_PREROLL_MARKER ++ le64 8 ++ le64 7).length = 67 ∧
    ((List.replicate 43 0 ++ AOPUS_CSD_SEEK_PREROLL_MARKER ++ le64 8 ++ le64 7).drop 43).take 8 =
      AOPUS_CSD_SEEK_PREROLL_MARKER := by
  refine ⟨by decide, by decide, by decide⟩
/-- C6 (amended): with the minimum-size check passed, `WriteOpusHeaders`
fails exactly when `headerLen + 48 >= output_capacity` (the room check uses
`>=`, so the exact-fit case is rejected); whenever
`headerLen + 48 < output_capacity` it succeeds, appending after the header, in
fixed order, the codec-delay record then the seek-preroll record, each an
8-byte marker followed by an 8-byte length field holding 8 and the 8-byte
value, and returns `headerLen + 48`. -/
theorem c6_trailerRoom (h : OpusHeader) (rate cap d p : Nat)
    (hmin : AOPUS_UNIFIED_CSD_MINSIZE ≤ cap) :
    ∀ buf hl, WriteOpusHeader h rate cap = some (buf, hl) →
      (cap ≤ hl + 2 * AOPUS_TOTAL_CSD_SIZE → WriteOpusHeaders h rate cap d p = none) ∧
      (hl + 2 * AOPUS_TOTAL_CSD_SIZE < cap →
        WriteOpusHeaders h rate cap d p =
          some (buf.take hl ++
            (AOPUS_CSD_CODEC_DELAY_MARKER ++ le64 AOPUS_LENGTH ++ le64 d ++
             AOPUS_CSD_SEEK_PREROLL_MARKER ++ le64 AOPUS_LENGTH ++ le64 p) ++
            List.replicate (cap - hl - 2 * AOPUS_TOTAL_CSD_SIZE) 0,
            hl + 2 * AOPUS_TOTAL_CSD_SIZE)) := by
  simp only [AOPUS_UNIFIED_CSD_MINSIZE, AOPUS_TOTAL_CSD_SIZE, AOPUS_MARKER_SIZE,
    AOPUS_LENGTH_SIZE, AOPUS_CSD_SIZE, kOpusHeaderSize] at hmin ⊢
  intro buf hl hw
  have hcap : kOpusHeaderStreamMapOffset + h.channels ≤ cap := by
    by_contra hc
    unfold WriteOpusHeader at hw
    rw [if_pos (by omega)] at hw
    simp at hw
  rw [WriteOpusHeader_eq h rate cap hcap] at hw
  rw [Option.some.injEq, Prod.mk.injEq] at hw
  obtain ⟨hbuf, hhl⟩ := hw
  have hBlen := opusHeaderBytes_length h rate
  have hLle : (opusHeaderBytes h rate).length ≤ hl ∧
      hl ≤ (opusHeaderBytes h rate).length + 1 := by
    rw [hBlen, ← hhl]
    by_cases hch : 2 < h.channels
    · simp [hch]
    · simp [hch]
  rw [← hBlen] at hbuf
  subst hbuf
  constructor
  · intro hle
    unfold WriteOpusHeaders
    simp only [AOPUS_UNIFIED_CSD_MINSIZE, AOPUS_TOTAL_CSD_SIZE, AOPUS_MARKER_SIZE,
      AOPUS_LENGTH_SIZE, AOPUS_CSD_SIZE, kOpusHeaderSize]
    rw [if_neg (by omega)]
    rw [WriteOpusHeader_eq h rate cap hcap]
    dsimp only
    rw [hhl]
    rw [if_pos (by omega)]
  · intro hlt
    unfold WriteOpusHeaders
    simp only [AOPUS_UNIFIED_CSD_MINSIZE, AOPUS_TOTAL_CSD_SIZE, AOPUS_MARKER_SIZE,
      AOPUS_LENGTH_SIZE, AOPUS_CSD_SIZE, kOpusHeaderSize]
    rw [if_neg (by omega)]
    rw [WriteOpusHeader_eq h rate cap hcap]
    dsimp only
    rw [hhl, if_neg (by omega), ← hBlen]
    have hrep : cap - (opusHeaderBytes h rate).length =
        (hl - (opusHeaderBytes h rate).length) + (cap - hl) := by omega
    rw [hrep, List.replicate_add, ← List.append_assoc]
    rw [writeBytes_chunk (opusHeaderBytes h rate ++
        List.replicate (hl - (opusHeaderBytes h rate).length) 0)
      AOPUS_CSD_CODEC_DELAY_MARKER (cap - hl) hl 8 (cap - hl - 8)
      (by simp; omega) (by decide) (by omega)]
    rw [writeBytes_chunk ((opusHeaderBytes h rate ++
        List.replicate (hl - (opusHeaderBytes h rate).length) 0) ++
        AOPUS_CSD_CODEC_DELAY_MARKER)
      (le64 AOPUS_LENGTH) (cap - hl - 8) (hl + 8) 8 (cap - hl - 16)
      (by simp [AOPUS_CSD_CODEC_DELAY_MARKER]; omega) (by decide) (by omega)]
    rw [writeBytes_chunk (((opusHeaderBytes h rate ++
        List.replicate (hl - (opusHeaderBytes h rate).length) 0) ++
        AOPUS_CSD_CODEC_DELAY_MARKER) ++ le64 AOPUS_LENGTH)
      (le64 d) (cap - hl - 16) (hl + 8 + 8) 8 (cap - hl - 24)
      (by simp [AOPUS_CSD_CODEC_DELAY_MARKER, le64]; omega) (by simp [le64]) (by omega)]
    rw [writeBytes_chunk ((((opusHeaderBytes h rate ++
        List.replicate (hl - (opusHeaderBytes h rate).length) 0) ++
        AOPUS_CSD_CODEC_DELAY_MARKER) ++ le64 AOPUS_LENGTH) ++ le64 d)
      AOPUS_CSD_SEEK_PREROLL_MARKER (cap - hl - 24) (hl + (8 + 8 + 8)) 8 (cap - hl - 32)
      (by simp [AOPUS_CSD_CODEC_DELAY_MARKER, le64]; omega) (by decide) (by omega)]
    rw [writeBytes_chunk (((((opusHeaderBytes h rate ++
        List.replicate (hl - (opusHeaderBytes h rate).length) 0) ++
        AOPUS_CSD_CODEC_DELAY_MARKER) ++ le64 AOPUS_LENGTH) ++ le64 d) ++
        AOPUS_CSD_SEEK_PREROLL_MARKER)
      (le64 AOPUS_LENGTH) (cap - hl - 32) (hl + (8 + 8 + 8) + 8) 8 (cap - hl - 40)
      (by simp [AOPUS_CSD_CODEC_DELAY_MARKER, AOPUS_CSD_SEEK_PREROLL_MARKER, le64]; omega)
      (by decide) (by omega)]
    rw [writeBytes_chunk ((((((opusHeaderBytes h rate ++
        List.replicate (hl - (opusHeaderBytes h rate).length) 0) ++
        AOPUS_CSD_CODEC_DELAY_MARKER) ++ le64 AOPUS_LENGTH) ++ le64 d) ++
        AOPUS_CSD_SEEK_PREROLL_MARKER) ++ le64 AOPUS_LENGTH)
      (le64 p) (cap - hl - 40) (hl + (8 + 8 + 8) + 8 + 8) 8 (cap - hl - 2 * (8 + 8 + 8))
      (by simp [AOPUS_CSD_CODEC_DELAY_MARKER, AOPUS_CSD_SEEK_PREROLL_MARKER, le64]; omega)
      (by simp [le64]) (by omega)]
    have htake := List.take_left (opusHeaderBytes h rate ++
      List.replicate (hl - (opusHeaderBytes h rate).length) 0)
      (List.replicate (cap - hl) 0)
    have hlen0 : (opusHeaderBytes h rate ++
        List.replicate (hl - (opusHeaderBytes h rate).length) 0).length = hl := by
      simp
      omega
    rw [hlen0] at htake
    rw [htake]
    simp [List.append_assoc]

/-- C6 (counterexample): the claim fails at the exact-fit capacity.  For the
mono header and capacity 67, the minimum-size check passes (67 is the unified
minimum), `WriteOpusHeader` succeeds with header length 19, and
19 + 48 <= 67, yet `WriteOpusHeaders` fails: its room check uses `>=`, so a
buffer with exactly 48 bytes left after the header is rejected. -/
theorem c6_trailerRoom_counterexample :
    WriteOpusHeaders ⟨1, 0, 0, 0, 1, 0, [0, 1]⟩ 48000 67 5 10 = none ∧
    (WriteOpusHeader ⟨1, 0, 0, 0, 1, 0, [0, 1]⟩ 48000 67).map Prod.snd = some 19 ∧
    AOPUS_UNIFIED_CSD_MINSIZE ≤ 67 ∧
    19 + 2 * AOPUS_TOTAL_CSD_SIZE ≤ 67 := by
  exact ⟨by decide, by decide, by decide, by decide⟩

/-- C6 (witness): the amended characterization at concrete inputs.  The mono
header with capacity 67 (exact fit) fails; with capacity 70 the unified writer
succeeds and returns 19 + 48 = 67. -/
theorem c6_trailerRoom_witness :
    WriteOpusHeaders ⟨1, 0, 0, 0, 1, 0, [0, 1]⟩ 48000 67 5 10 = none ∧
    (WriteOpusHeaders ⟨1, 0, 0, 0, 1, 0, [0, 1]⟩ 48000 70 5 10).map Prod.snd = some 67 := by
  constructor
  · rcases hw : WriteOpusHeader ⟨1, 0, 0, 0, 1, 0, [0, 1]⟩ 48000 67 with _ | ⟨buf, hl⟩
    · exact absurd hw (by decide)
    · have h2 : (some (buf, hl)).map Prod.snd = some 19 := by
        rw [← hw]
        decide
      have hhl : hl = 19 := by simpa using h2
      subst hhl
      exact (c6_trailerRoom _ 48000 67 5 10 (by decide) buf 19 hw).1 (by decide)
  · rcases hw : WriteOpusHeader ⟨1, 0, 0, 0, 1, 0, [0, 1]⟩ 48000 70 with _ | ⟨buf, hl⟩
    · exact absurd hw (by decide)
    · have h2 : (some (buf, hl)).map Prod.snd = some 19 := by
        rw [← hw]
        decide
      have hhl : hl = 19 := by simpa using h2
      subst hhl
      rw [(c6_trailerRoom _ 48000 70 5 10 (by decide) buf 19 hw).2 (by decide)]
      simp [AOPUS_TOTAL_CSD_SIZE, AOPUS_MARKER_SIZE, AOPUS_LENGTH_SIZE, AOPUS_CSD_SIZE]

end OpusModel
